import Mathlib

/-!
Verification development for the recurrent-js neural-network toolkit.

The feed-forward and recurrent model classes (`src/fnn/fnn-model.ts`,
`src/fnn/dnn.ts`, `src/rnn/rnn.ts`, `src/rnn/rnn-model.ts`) are embedded
below as pure Lean functions over rational numbers.  The `Mat` and `Graph`
classes live outside the provided sources, so they are modelled from the
specification (data model in spec section 3, tape contract in spec
section 4.3).
-/

namespace RecurrentJs

/-- Modelled from the spec: the Tensor ("Mat") data model — a dense 2-D
numeric buffer `w` (values) with a parallel gradient buffer `dw` of
identical shape.  The field names `w` and `dw` are the ones the model
sources read (`previousOutput.w[i]`, `previousOutput.dw[i]`). -/
structure Mat where
  rows : Nat
  cols : Nat
  w : List ℚ
  dw : List ℚ

/-- Modelled from the spec: a freshly constructed Tensor has zeroed
`values` and `gradient` buffers (`new Mat(rows, cols)`). -/
def Mat.new (rows cols : Nat) : Mat :=
  { rows := rows, cols := cols,
    w := List.replicate (rows * cols) 0,
    dw := List.replicate (rows * cols) 0 }

/-- Modelled from the spec: `Tensor.update(learningRate)` — for every
index, `values[i] -= learningRate * gradient[i]`, then reset
`gradient[i] = 0`. -/
def Mat.update (alpha : ℚ) (m : Mat) : Mat :=
  { m with
    w := List.zipWith (fun v g => v - alpha * g) m.w m.dw,
    dw := List.replicate m.dw.length 0 }

/-- Modelled from the spec: a Tensor serialized as
`\x7brows, cols, values\x7d` (spec section 6). -/
structure MatJson where
  rows : Nat
  cols : Nat
  values : List ℚ

/-- Modelled from the spec: deserialization (`Mat.fromJSON`) populates the
value buffer from the serialized array and leaves the gradient all zero. -/
def Mat.fromJSON (j : MatJson) : Mat :=
  { rows := j.rows, cols := j.cols,
    w := j.values,
    dw := List.replicate (j.rows * j.cols) 0 }

/-- Parameter Tensors of a feed-forward model
(`model.hidden.Wh / model.hidden.bh / model.decoder.Wh / model.decoder.b`
in `fnn-model.ts`). -/
structure FNNParams where
  hiddenWh : List Mat
  hiddenBh : List Mat
  decoderWh : Mat
  decoderB : Mat

/-- The mutable model-side state a training step touches: the parameter
Tensors and the retained output of the most recent forward pass
(`this.previousOutput`, `undefined` before any forward pass). -/
structure FNNCore where
  params : FNNParams
  previousOutput : Option Mat

/-- Modelled from the spec: the Tape ("Graph") — a `recording` flag and an
ordered sequence of recorded backward closures (insertion order = forward
execution order).  A closure, when replayed, transforms the model-side
state by accumulating gradients. -/
structure Graph where
  memorizing : Bool
  sequence : List (FNNCore → FNNCore)

/-- Modelled from the spec: `forgetCurrentSequence` discards the recorded
closures ("Reset the Tape's recorded stack, discarding closures"). -/
def Graph.forgetCurrentSequence (g : Graph) : Graph :=
  { g with sequence := [] }

/-- Modelled from the spec: `memorizeOperationSequence(b)` sets the
`recording` flag; switching it on re-enables recording without side
effects at the tape level. -/
def Graph.memorizeOperationSequence (g : Graph) (b : Bool) : Graph :=
  { g with memorizing := b }

/-- Modelled from the spec: `isMemorizingSequence()` reads the `recording`
flag. -/
def Graph.isMemorizingSequence (g : Graph) : Bool :=
  g.memorizing

/-- Modelled from the spec: `Graph.backward()` pops and executes every
recorded closure in strict reverse-of-recording (LIFO) order. -/
def Graph.backwardReplay (g : Graph) (s : FNNCore) : FNNCore :=
  g.sequence.foldr (fun f st => f st) s

/-- Full state of a feed-forward model instance: model-side state plus its
tape (`this.graph`). -/
structure FNNFull where
  core : FNNCore
  graph : Graph

/-- Architecture descriptor
(`\x7binputSize, hiddenUnits, outputSize\x7d`). -/
structure Architecture where
  inputSize : Nat
  hiddenUnits : List Nat
  outputSize : Nat

/-- Training hyperparameters held by the model
(`this.training` in `fnn-model.ts`): `alpha`, `lossClamp`, and the loss
deadband threshold stored under the field name `loss`. -/
structure TrainingProps where
  alpha : ℚ
  lossClamp : ℚ
  loss : ℚ
  deriving DecidableEq

/-- Optional training hyperparameters as supplied at construction: `none`
models a field that is absent or not of JS type `number`. -/
structure TrainingOpts where
  alpha : Option ℚ
  lossClamp : Option ℚ
  loss : Option ℚ

/-- Embeds `FNNModel.determineTrainingProperties` (fnn-model.ts:104-116):
a missing `opt.training` is patched with an empty record, then each field
is taken verbatim when numeric and defaulted otherwise
(`alpha = 0.01`, `lossClamp = 1`, `loss = 1e-6`). -/
def determineTrainingProperties (training? : Option TrainingOpts) : TrainingProps :=
  let t := match training? with
    | none => { alpha := none, lossClamp := none, loss := none : TrainingOpts }
    | some t => t
  { alpha := t.alpha.getD (1 / 100),
    lossClamp := t.lossClamp.getD 1,
    loss := t.loss.getD (1 / 1000000) }

/-- Embeds `FNNModel.clipLoss` (fnn-model.ts:200-204): clamp the raw loss
into `[-lossClamp, +lossClamp]`. -/
def clipLoss (lossClamp loss : ℚ) : ℚ :=
  if loss > lossClamp then lossClamp
  else if loss < -lossClamp then -lossClamp
  else loss

/-- Loop body of `FNNModel.propagateLossIntoDecoderLayer`
(fnn-model.ts:190-196): compute `loss = previousOutput.w[i] - expected[i]`;
when `|loss| <= training.loss` skip the component (`continue`), otherwise
write the clipped loss into `previousOutput.dw[i]`. -/
def propagateStep (training : TrainingProps) (expected : List ℚ) (m : Mat) (i : Nat) : Mat :=
  let loss := m.w.getD i 0 - expected.getD i 0
  if |loss| ≤ training.loss then m
  else { m with dw := m.dw.set i (clipLoss training.lossClamp loss) }

/-- Embeds `FNNModel.propagateLossIntoDecoderLayer` (fnn-model.ts:187-198):
run the loss-injection loop body for each output component
`i < outputSize`. -/
def propagateLossIntoDecoderLayer (training : TrainingProps) (outputSize : Nat)
    (expected : List ℚ) (out : Mat) : Mat :=
  (List.range outputSize).foldl (propagateStep training expected) out

/-- JavaScript truthiness applied to the optional `alpha` argument of
`updateWeights` (fnn-model.ts:206-210): `alpha = alpha ? alpha :
this.training.alpha`, so `undefined` and `0` both fall back to the
configured learning rate. -/
def truthyAlpha (alpha? : Option ℚ) (fallback : ℚ) : ℚ :=
  match alpha? with
  | none => fallback
  | some a => if a = 0 then fallback else a

/-- Writes element `i` of a list through `f`, mirroring the in-place
element mutation `xs[i].update(alpha)` of the update loops. -/
def listModify (f : Mat → Mat) : Nat → List Mat → List Mat
  | _, [] => []
  | 0, a :: as => f a :: as
  | n + 1, a :: as => a :: listModify f n as

/-- Embeds `FNNModel.updateHiddenLayer` (fnn-model.ts:212-217): for each
hidden layer index `i`, apply `update(alpha)` to `hidden.Wh[i]` and
`hidden.bh[i]`. -/
def updateHiddenLayer (alpha : ℚ) (hiddenCount : Nat) (p : FNNParams) : FNNParams :=
  (List.range hiddenCount).foldl (fun q i =>
    { q with
      hiddenWh := listModify (Mat.update alpha) i q.hiddenWh,
      hiddenBh := listModify (Mat.update alpha) i q.hiddenBh }) p

/-- Embeds `FNNModel.updateDecoderLayer` (fnn-model.ts:219-222): apply
`update(alpha)` to `decoder.Wh` and `decoder.b`. -/
def updateDecoderLayer (alpha : ℚ) (p : FNNParams) : FNNParams :=
  { p with
    decoderWh := Mat.update alpha p.decoderWh,
    decoderB := Mat.update alpha p.decoderB }

/-- Embeds `FNNModel.updateWeights` (fnn-model.ts:206-210): resolve the
effective learning rate by JS truthiness, then update the hidden layers
and the decoder layer. -/
def updateWeights (training : TrainingProps) (hiddenCount : Nat)
    (alpha? : Option ℚ) (p : FNNParams) : FNNParams :=
  let alpha := truthyAlpha alpha? training.alpha
  updateDecoderLayer alpha (updateHiddenLayer alpha hiddenCount p)

/-- Error taxonomy of the training/restore protocol (spec section 7).  The
source raises these through `Assertable.assert` messages. -/
inductive ModelError where
  | trainabilityDisabled
  | precedingForwardPassRequired
  | malformedModel
  deriving DecidableEq

/-- Error-injection step of `backward` at its call site: the raw loss is
written into the gradient buffer of the retained `previousOutput`. -/
def injectLoss (training : TrainingProps) (outputSize : Nat)
    (expected : List ℚ) (c : FNNCore) : FNNCore :=
  match c.previousOutput with
  | none => c
  | some m =>
      { c with
        previousOutput := some (propagateLossIntoDecoderLayer training outputSize expected m) }

/-- Embeds `FNNModel.backward` (fnn-model.ts:170-185): assert that the
graph is memorizing (else `TrainabilityDisabled`), assert that a previous
forward pass exists (else `PrecedingForwardPassRequired`), then propagate
the loss into the decoder layer, replay the graph backward, update the
weights, and forget the recorded sequence. -/
def backward (training : TrainingProps) (arch : Architecture)
    (expected : List ℚ) (alpha? : Option ℚ) (s : FNNFull) :
    Except ModelError FNNFull :=
  if s.graph.isMemorizingSequence then
    match s.core.previousOutput with
    | none => Except.error ModelError.precedingForwardPassRequired
    | some _ =>
        let c1 := injectLoss training arch.outputSize expected s.core
        let c2 := s.graph.backwardReplay c1
        let c3 := { c2 with
          params := updateWeights training arch.hiddenUnits.length alpha? c2.params }
        Except.ok { core := c3, graph := s.graph.forgetCurrentSequence }
  else Except.error ModelError.trainabilityDisabled

/-- Explicit one-update-per-parameter form of the weight update: every
hidden-layer weight and bias and the decoder weight and bias pass through
`Mat.update` exactly once. -/
def updatedParams (alpha : ℚ) (q : FNNParams) : FNNParams :=
  { hiddenWh := q.hiddenWh.map (Mat.update alpha),
    hiddenBh := q.hiddenBh.map (Mat.update alpha),
    decoderWh := Mat.update alpha q.decoderWh,
    decoderB := Mat.update alpha q.decoderB }

/-- The model-side state reached inside a successful `backward` call
after the error-injection and backward-replay phases, before the
parameter-update phase. -/
def postReplayCore (training : TrainingProps) (arch : Architecture)
    (expected : List ℚ) (s : FNNFull) : FNNCore :=
  s.graph.backwardReplay (injectLoss training arch.outputSize expected s.core)

/-- Embeds `FNNModel.setTrainability` (fnn-model.ts:155-162): forget the
current sequence, then set the memorizing flag. -/
def setTrainability (isTrainable : Bool) (s : FNNFull) : FNNFull :=
  { s with graph :=
      (s.graph.forgetCurrentSequence).memorizeOperationSequence isTrainable }

/-- Modelled from the spec: forward value of the tape primitive
`mul(A, B)` — the matrix-vector product of an `r x k` matrix with a `k x 1`
column vector, returning a freshly allocated `r x 1` output whose gradient
buffer is zero (spec section 4.3 table). -/
def graphMul (a x : Mat) : Mat :=
  { rows := a.rows, cols := 1,
    w := (List.range a.rows).map (fun i =>
      ((List.range a.cols).map (fun k => a.w.getD (i * a.cols + k) 0 * x.w.getD k 0)).sum),
    dw := List.replicate a.rows 0 }

/-- Modelled from the spec: forward value of the tape primitive
`add(A, B)` — elementwise sum of two identically shaped matrices, returning
a fresh output with zero gradient (spec section 4.3 table). -/
def graphAdd (a b : Mat) : Mat :=
  { rows := a.rows, cols := a.cols,
    w := List.zipWith (fun x y => x + y) a.w b.w,
    dw := List.replicate a.w.length 0 }

/-- Modelled from the spec: forward value of the tape primitive `relu(A)` —
elementwise `max(0, x)`, returning a fresh output with zero gradient (spec
section 4.3 table). -/
def graphRelu (a : Mat) : Mat :=
  { rows := a.rows, cols := a.cols,
    w := a.w.map (fun x => max 0 x),
    dw := List.replicate a.w.length 0 }

/-- Embeds `FNNModel.transformArrayToMat` (fnn-model.ts:236-240): allocate
a fresh `inputSize x 1` column vector and copy the input sequence into its
value buffer (`mat.setFrom(input)`). -/
def transformArrayToMat (inputSize : Nat) (input : List ℚ) : Mat :=
  { rows := inputSize, cols := 1,
    w := (List.range (inputSize * 1)).map (fun i => input.getD i 0),
    dw := List.replicate (inputSize * 1) 0 }

/-- Embeds `FNNModel.computeOutput` (fnn-model.ts:252-255): multiply the
decoder weight with the last entry of the hidden-unit activations and add
the decoder bias. -/
def fnnComputeOutput (decoderWh decoderB : Mat) (hiddenUnitActivations : List Mat) : Mat :=
  graphAdd (graphMul decoderWh (hiddenUnitActivations.getD (hiddenUnitActivations.length - 1) (Mat.new 0 0))) decoderB

/-- Embeds `RNNModel.computeOutput` (rnn-model.ts): the preceding hidden
layer activation is the last entry of the activations, multiplied by the
decoder weight and added to the decoder bias. -/
def rnnComputeOutput (decoderWh decoderB : Mat) (hiddenActivations : List Mat) : Mat :=
  let precedingHiddenLayerActivations := hiddenActivations.getD (hiddenActivations.length - 1) (Mat.new 0 0)
  graphAdd (graphMul decoderWh precedingHiddenLayerActivations) decoderB

/-- Value computation of `FNNModel.forward` (fnn-model.ts:229-234),
parameterized by the abstract `specificForwardpass` of the concrete
subclass: build the input Mat, run the hidden layers, decode, and return
the output value buffer (`transformMatToArray` slices `w`). -/
def fnnForwardValues (arch : Architecture) (decoderWh decoderB : Mat)
    (specificForwardpass : Mat → List Mat) (input : List ℚ) : List ℚ :=
  (fnnComputeOutput decoderWh decoderB (specificForwardpass (transformArrayToMat arch.inputSize input))).w

/-- Embeds `FNNModel.calculateLossSumByForwardPass` (fnn-model.ts:265-273):
run a forward pass, then accumulate the signed per-component differences
`actualOutput[i] - expected[i]` over `i < outputSize`. -/
def calculateLossSumByForwardPass (arch : Architecture) (decoderWh decoderB : Mat)
    (specificForwardpass : Mat → List Mat) (input expected : List ℚ) : ℚ :=
  let actualOutput := fnnForwardValues arch decoderWh decoderB specificForwardpass input
  (List.range arch.outputSize).foldl (fun lossSum i =>
    lossSum + (actualOutput.getD i 0 - expected.getD i 0)) 0

/-- Embeds `FNNModel.getSquaredLossFor` (fnn-model.ts:257-263): the
trainability flag is saved, recording switched off for the evaluation
pass and restored afterwards — none of which affects the returned value —
and the squared sum of losses `lossSum * lossSum` is returned. -/
def getSquaredLossFor (arch : Architecture) (decoderWh decoderB : Mat)
    (specificForwardpass : Mat → List Mat) (input expectedOutput : List ℚ) : ℚ :=
  let lossSum := calculateLossSumByForwardPass arch decoderWh decoderB specificForwardpass input expectedOutput
  lossSum * lossSum

/-- Parameter Tensors of a recurrent model (`model.hidden.Wx / Wh / bh`
plus decoder, rnn.ts). -/
structure RNNParams where
  hiddenWx : List Mat
  hiddenWh : List Mat
  hiddenBh : List Mat
  decoderWh : Mat
  decoderB : Mat

/-- Embeds `RNN.getPreviousHiddenActivationsFrom` (rnn.ts:86-101): when a
previous activation state carrying `hiddenActivationState` was given, use
it; otherwise build one fresh zero `hiddenUnits[i] x 1` column vector per
layer. -/
def getPreviousHiddenActivationsFrom (hiddenUnits : List Nat)
    (previousActivationState : Option (List Mat)) : List Mat :=
  match previousActivationState with
  | some hs => hs
  | none => hiddenUnits.map (fun h => Mat.new h 1)

/-- Embeds `RNN.computeHiddenActivations` (rnn.ts:103-114): layer `i`
consumes the input (for `i = 0`) or the previous layer's activation,
plus its own previous-time-step activation through `Wh[i]`, and applies
`relu` after adding the bias. -/
def rnnComputeHiddenActivations (hiddenUnits : List Nat) (p : RNNParams)
    (input : Mat) (previousHiddenActivations : List Mat) : List Mat :=
  (List.range hiddenUnits.length).foldl (fun hiddenActivations i =>
    let inputVector := if i = 0 then input else hiddenActivations.getD (i - 1) (Mat.new 0 0)
    let previousActivations := previousHiddenActivations.getD i (Mat.new 0 0)
    let weightedStatelessInputPortion := graphMul (p.hiddenWx.getD i (Mat.new 0 0)) inputVector
    let weightedStatefulInputPortion := graphMul (p.hiddenWh.getD i (Mat.new 0 0)) previousActivations
    let activation := graphRelu (graphAdd (graphAdd weightedStatelessInputPortion weightedStatefulInputPortion) (p.hiddenBh.getD i (Mat.new 0 0)))
    hiddenActivations ++ [activation]) []

/-- Embeds `RNN.forward` (rnn.ts:75-84): resolve the previous hidden
activations (defaulting per `getPreviousHiddenActivationsFrom`), compute
the hidden activations and the output, returning the pair
(`hiddenActivationState`, `output`). -/
def rnnForward (hiddenUnits : List Nat) (p : RNNParams) (input : Mat)
    (previousActivationState : Option (List Mat)) : List Mat × Mat :=
  let previousHiddenActivations := getPreviousHiddenActivationsFrom hiddenUnits previousActivationState
  let hiddenActivations := rnnComputeHiddenActivations hiddenUnits p input previousHiddenActivations
  (hiddenActivations, rnnComputeOutput p.decoderWh p.decoderB hiddenActivations)

/-- Serialized weights bundle of a recurrent model as described by the
type of `RNN.initializeHiddenLayerFromJSON` (rnn.ts:29): the hidden
fields are JS arrays of serialized matrices. -/
structure RNNJson where
  hiddenWh : List MatJson
  hiddenWx : List MatJson
  hiddenBh : List MatJson
  decoderWh : MatJson
  decoderB : MatJson

/-- Result of JavaScript `Array.isArray` on a value that is represented
here as a Lean list, i.e. on a value that is a JS array: always `true`. -/
def isJSArray (_ : List MatJson) : Bool :=
  true

/-- Embeds `RNN.initializeHiddenLayerFromJSON` (rnn.ts:29-38): the source
asserts `!Array.isArray(opt.hidden.Wh)` (and likewise for `Wx` and `bh`)
with message "Wrong JSON Format to recreate Hidden Layer", then loops over
`opt.hidden.Wh.length` restoring `Wx[i]`, `Wh[i]`, `bh[i]` from JSON. -/
def rnnInitializeHiddenLayerFromJSON (j : RNNJson) :
    Except ModelError (List Mat × List Mat × List Mat) :=
  if !(isJSArray j.hiddenWh) = false then Except.error ModelError.malformedModel
  else if !(isJSArray j.hiddenWx) = false then Except.error ModelError.malformedModel
  else if !(isJSArray j.hiddenBh) = false then Except.error ModelError.malformedModel
  else Except.ok
    ((List.range j.hiddenWh.length).map (fun i => Mat.fromJSON (j.hiddenWx.getD i (MatJson.mk 0 0 []))),
     (List.range j.hiddenWh.length).map (fun i => Mat.fromJSON (j.hiddenWh.getD i (MatJson.mk 0 0 []))),
     (List.range j.hiddenWh.length).map (fun i => Mat.fromJSON (j.hiddenBh.getD i (MatJson.mk 0 0 []))))

/-- Embeds `RNNModel.initializeModelFromJSONObject` (rnn-model.ts): first
restore the hidden layer from JSON, then the decoder weight and bias. -/
def rnnInitializeModelFromJSONObject (j : RNNJson) : Except ModelError RNNParams :=
  match rnnInitializeHiddenLayerFromJSON j with
  | Except.error e => Except.error e
  | Except.ok (wx, wh, bh) =>
      Except.ok
        { hiddenWx := wx, hiddenWh := wh, hiddenBh := bh,
          decoderWh := Mat.fromJSON j.decoderWh,
          decoderB := Mat.fromJSON j.decoderB }

/-! Concrete states used to evaluate the embedded operations. -/

/-- A one-component output Tensor with value 2 and fresh (zero) gradient. -/
def exampleMat : Mat :=
  { rows := 1, cols := 1, w := [2], dw := [0] }

/-- Parameters of a minimal one-hidden-layer model. -/
def exampleParams : FNNParams :=
  { hiddenWh := [Mat.new 1 1], hiddenBh := [Mat.new 1 1],
    decoderWh := Mat.new 1 1, decoderB := Mat.new 1 1 }

/-- The default training hyperparameters. -/
def exampleTraining : TrainingProps :=
  { alpha := 1 / 100, lossClamp := 1, loss := 1 / 1000000 }

/-- A minimal architecture descriptor. -/
def exampleArch : Architecture :=
  { inputSize := 1, hiddenUnits := [1], outputSize := 1 }

/-- A model state ready for a training step: memorizing, with a retained
forward-pass output. -/
def exampleReadyState : FNNFull :=
  { core := { params := exampleParams, previousOutput := some exampleMat },
    graph := { memorizing := true, sequence := [] } }

/-- A memorizing model state on which no forward pass has run yet. -/
def exampleNoForwardState : FNNFull :=
  { core := { params := exampleParams, previousOutput := none },
    graph := { memorizing := true, sequence := [] } }

/-- A model state holding one recorded closure on its tape. -/
def exampleRecordedState : FNNFull :=
  { core := { params := exampleParams, previousOutput := none },
    graph := { memorizing := false, sequence := [fun c => c] } }

/-- A 2 x 2 identity weight matrix. -/
def exampleIdentity2 : Mat :=
  { rows := 2, cols := 2, w := [1, 0, 0, 1], dw := [0, 0, 0, 0] }

/-- A zero 2 x 1 bias vector. -/
def exampleZeroBias2 : Mat :=
  Mat.new 2 1

/-- An architecture with two inputs and two outputs. -/
def exampleArch2 : Architecture :=
  { inputSize := 2, hiddenUnits := [2], outputSize := 2 }

/-- A hidden stage that passes the input Tensor through unchanged. -/
def examplePassThrough : Mat → List Mat :=
  fun m => [m]

/-- A well-formed serialized recurrent model whose matrices match the
architecture with one hidden unit of size 1. -/
def exampleRNNJson : RNNJson :=
  { hiddenWh := [MatJson.mk 1 1 [1]],
    hiddenWx := [MatJson.mk 1 1 [1]],
    hiddenBh := [MatJson.mk 1 1 [0]],
    decoderWh := MatJson.mk 1 1 [1],
    decoderB := MatJson.mk 1 1 [0] }

end RecurrentJs

namespace RecurrentJs

/-! Helper lemmas about the loss-injection loop. -/

theorem propagateStep_w (training : TrainingProps) (expected : List ℚ) (m : Mat) (i : Nat) :
    (propagateStep training expected m i).w = m.w := by
  simp only [propagateStep]
  split <;> rfl

theorem propagateStep_dw_length (training : TrainingProps) (expected : List ℚ) (m : Mat) (i : Nat) :
    (propagateStep training expected m i).dw.length = m.dw.length := by
  simp only [propagateStep]
  split <;> simp

theorem propagateStep_dw_getD_ne (training : TrainingProps) (expected : List ℚ)
    (m : Mat) (i j : Nat) (h : i ≠ j) :
    (propagateStep training expected m i).dw.getD j 0 = m.dw.getD j 0 := by
  simp only [propagateStep]
  split
  · rfl
  · simp only [List.getD_eq_getElem?_getD, List.getElem?_set_ne h]

theorem propagate_w_eq (training : TrainingProps) (n : Nat) (expected : List ℚ) (out : Mat) :
    (propagateLossIntoDecoderLayer training n expected out).w = out.w := by
  induction n with
  | zero => rfl
  | succ k ih =>
      unfold propagateLossIntoDecoderLayer at ih ⊢
      rw [List.range_succ, List.foldl_append, List.foldl_cons, List.foldl_nil,
        propagateStep_w, ih]

theorem propagate_dw_length (training : TrainingProps) (n : Nat) (expected : List ℚ) (out : Mat) :
    (propagateLossIntoDecoderLayer training n expected out).dw.length = out.dw.length := by
  induction n with
  | zero => rfl
  | succ k ih =>
      unfold propagateLossIntoDecoderLayer at ih ⊢
      rw [List.range_succ, List.foldl_append, List.foldl_cons, List.foldl_nil,
        propagateStep_dw_length, ih]

theorem propagate_dw_untouched (training : TrainingProps) (n : Nat) (expected : List ℚ)
    (out : Mat) (i : Nat) (h : n ≤ i) :
    (propagateLossIntoDecoderLayer training n expected out).dw.getD i 0 = out.dw.getD i 0 := by
  induction n with
  | zero => rfl
  | succ k ih =>
      unfold propagateLossIntoDecoderLayer at ih ⊢
      rw [List.range_succ, List.foldl_append, List.foldl_cons, List.foldl_nil,
        propagateStep_dw_getD_ne _ _ _ _ _ (by omega), ih (by omega)]

theorem propagate_dw_getD (training : TrainingProps) (n : Nat) (expected : List ℚ)
    (out : Mat) (i : Nat) (hi : i < n) (hdw : i < out.dw.length) :
    (propagateLossIntoDecoderLayer training n expected out).dw.getD i 0
      = if |out.w.getD i 0 - expected.getD i 0| ≤ training.loss
        then out.dw.getD i 0
        else clipLoss training.lossClamp (out.w.getD i 0 - expected.getD i 0) := by
  induction n with
  | zero => omega
  | succ k ih =>
      unfold propagateLossIntoDecoderLayer at ih ⊢
      rw [List.range_succ, List.foldl_append, List.foldl_cons, List.foldl_nil]
      rcases Nat.lt_or_ge i k with hik | hik
      · rw [propagateStep_dw_getD_ne _ _ _ _ _ (by omega), ih hik]
      · have hik' : i = k := by omega
        subst hik'
        have hw := propagate_w_eq training i expected out
        have hlen := propagate_dw_length training i expected out
        have huntouched := propagate_dw_untouched training i expected out i (le_refl i)
        unfold propagateLossIntoDecoderLayer at hw hlen huntouched
        simp only [propagateStep, hw]
        split
        · exact huntouched
        · simp only [List.getD_eq_getElem?_getD,
            List.getElem?_set_self (by omega : i < (List.foldl (propagateStep training expected) out (List.range i)).dw.length)]
          rfl

/-! Helper lemmas about the clipping rule. -/

theorem clipLoss_pos (lossClamp loss : ℚ) (hc : 0 < lossClamp) (hl : 0 < loss) :
    0 < clipLoss lossClamp loss := by
  unfold clipLoss
  split_ifs <;> linarith

theorem clipLoss_neg (lossClamp loss : ℚ) (hc : 0 < lossClamp) (hl : loss < 0) :
    clipLoss lossClamp loss < 0 := by
  unfold clipLoss
  split_ifs <;> linarith

theorem clipLoss_abs_le (lossClamp loss : ℚ) (hc : 0 < lossClamp) :
    |clipLoss lossClamp loss| ≤ lossClamp := by
  unfold clipLoss
  split_ifs with h1 h2
  · rw [abs_of_pos hc]
  · rw [abs_of_neg (by linarith)]
    linarith
  · rw [abs_le]
    constructor <;> linarith

/-- C1: for every output component `i` of a training step, with
`diff = output.values[i] - target[i]`: if `|diff| <= lossDeadband` (held in
`training.loss`) the output gradient entry is left unchanged at its
initialized zero — an error of magnitude exactly the threshold injects
nothing — and otherwise the gradient entry is overwritten (independently
of its previous content) with `diff` clamped to
`[-lossClamp, +lossClamp]`, preserving the sign of `diff`, the deadband
test being applied to the raw error before clamping. -/
theorem c1_deadband_and_clamped_overwrite (training : TrainingProps) (out : Mat)
    (expected : List ℚ) (outputSize i : Nat)
    (hi : i < outputSize) (hdw : i < out.dw.length)
    (hclamp : 0 < training.lossClamp) :
    (|out.w.getD i 0 - expected.getD i 0| ≤ training.loss →
      (propagateLossIntoDecoderLayer training outputSize expected out).dw.getD i 0
        = out.dw.getD i 0) ∧
    (training.loss < |out.w.getD i 0 - expected.getD i 0| →
      (propagateLossIntoDecoderLayer training outputSize expected out).dw.getD i 0
          = clipLoss training.lossClamp (out.w.getD i 0 - expected.getD i 0) ∧
        (0 < out.w.getD i 0 - expected.getD i 0 →
          0 < (propagateLossIntoDecoderLayer training outputSize expected out).dw.getD i 0) ∧
        (out.w.getD i 0 - expected.getD i 0 < 0 →
          (propagateLossIntoDecoderLayer training outputSize expected out).dw.getD i 0 < 0) ∧
        |(propagateLossIntoDecoderLayer training outputSize expected out).dw.getD i 0|
          ≤ training.lossClamp) := by
  have hmain := propagate_dw_getD training outputSize expected out i hi hdw
  constructor
  · intro hle
    rw [hmain, if_pos hle]
  · intro hgt
    have hne : ¬ |out.w.getD i 0 - expected.getD i 0| ≤ training.loss := by linarith
    rw [hmain, if_neg hne]
    refine ⟨rfl, ?_, ?_, ?_⟩
    · intro hpos
      exact clipLoss_pos _ _ hclamp hpos
    · intro hneg
      exact clipLoss_neg _ _ hclamp hneg
    · exact clipLoss_abs_le _ _ hclamp

/-- C1 witness: at the default hyperparameters, an output value 2 against
target 0 exceeds the deadband and the gradient entry is overwritten with
the clipped, sign-preserving value. -/
theorem c1_witness :
    (0 : Nat) < 1 ∧ (0 : Nat) < exampleMat.dw.length ∧
      (0 : ℚ) < exampleTraining.lossClamp ∧
      (exampleTraining.loss < |exampleMat.w.getD 0 0 - ([0] : List ℚ).getD 0 0| →
        (propagateLossIntoDecoderLayer exampleTraining 1 [0] exampleMat).dw.getD 0 0
            = clipLoss exampleTraining.lossClamp (exampleMat.w.getD 0 0 - ([0] : List ℚ).getD 0 0) ∧
          (0 < exampleMat.w.getD 0 0 - ([0] : List ℚ).getD 0 0 →
            0 < (propagateLossIntoDecoderLayer exampleTraining 1 [0] exampleMat).dw.getD 0 0) ∧
          (exampleMat.w.getD 0 0 - ([0] : List ℚ).getD 0 0 < 0 →
            (propagateLossIntoDecoderLayer exampleTraining 1 [0] exampleMat).dw.getD 0 0 < 0) ∧
          |(propagateLossIntoDecoderLayer exampleTraining 1 [0] exampleMat).dw.getD 0 0|
            ≤ exampleTraining.lossClamp) :=
  ⟨by decide, by decide, by norm_num [exampleTraining],
    (c1_deadband_and_clamped_overwrite exampleTraining exampleMat [0] 1 0
      (by decide) (by decide) (by norm_num [exampleTraining])).2⟩

/-- C2: calling the training step with recording off fails with the
TrainabilityDisabled error; calling it with recording on but before any
forward pass has produced a last output fails with the
PrecedingForwardPassRequired error; with recording on and a retained last
output, neither error is raised and the step succeeds. -/
theorem c2_backward_preconditions (training : TrainingProps) (arch : Architecture)
    (expected : List ℚ) (alpha? : Option ℚ) (s : FNNFull) :
    (s.graph.memorizing = false →
      backward training arch expected alpha? s = Except.error ModelError.trainabilityDisabled) ∧
    (s.graph.memorizing = true → s.core.previousOutput = none →
      backward training arch expected alpha? s = Except.error ModelError.precedingForwardPassRequired) ∧
    (s.graph.memorizing = true → ∀ o : Mat, s.core.previousOutput = some o →
      ∃ r : FNNFull, backward training arch expected alpha? s = Except.ok r) := by
  refine ⟨?_, ?_, ?_⟩
  · intro h
    simp [backward, Graph.isMemorizingSequence, h]
  · intro hm hnone
    simp [backward, Graph.isMemorizingSequence, hm, hnone]
  · intro hm o ho
    simp [backward, Graph.isMemorizingSequence, hm, ho]

/-- C2 witness: on concrete states the three precondition outcomes are
realized. -/
theorem c2_witness :
    backward exampleTraining exampleArch [0] none exampleRecordedState
        = Except.error ModelError.trainabilityDisabled ∧
    backward exampleTraining exampleArch [0] none exampleNoForwardState
        = Except.error ModelError.precedingForwardPassRequired ∧
    ∃ r : FNNFull, backward exampleTraining exampleArch [0] none exampleReadyState = Except.ok r :=
  ⟨(c2_backward_preconditions exampleTraining exampleArch [0] none exampleRecordedState).1 rfl,
   (c2_backward_preconditions exampleTraining exampleArch [0] none exampleNoForwardState).2.1 rfl rfl,
   (c2_backward_preconditions exampleTraining exampleArch [0] none exampleReadyState).2.2 rfl
     exampleMat rfl⟩

/-- C3 counterexample: `setTrainability(true)` does discard closures
already recorded for the current pass — on a state holding one recorded
closure, the sequence is empty afterwards. -/
theorem c3_counterexample :
    (setTrainability true exampleRecordedState).graph.sequence = [] ∧
      exampleRecordedState.graph.sequence ≠ [] :=
  ⟨rfl, by simp [exampleRecordedState]⟩

/-- C3 amended: `setTrainability(isTrainable)` always discards the
recorded closures regardless of the flag value — it unconditionally calls
`forgetCurrentSequence` before setting the memorizing flag; the flag is
set to the argument and the model-side state is otherwise untouched. -/
theorem c3_set_trainability_always_discards (isTrainable : Bool) (s : FNNFull) :
    (setTrainability isTrainable s).graph.sequence = [] ∧
    (setTrainability isTrainable s).graph.memorizing = isTrainable ∧
    (setTrainability isTrainable s).core = s.core :=
  ⟨rfl, rfl, rfl⟩

/-- C5: the recurrent restore path rejects a well-formed serialized
bundle whose matrices match the declared architecture — the inverted
assertion on `Array.isArray(hidden.Wh)` fires on every bundle whose
hidden fields are arrays, so restoration fails with the malformed-model
error instead of succeeding. -/
theorem c5_wellformed_bundle_rejected :
    rnnInitializeModelFromJSONObject exampleRNNJson = Except.error ModelError.malformedModel ∧
    rnnInitializeHiddenLayerFromJSON exampleRNNJson = Except.error ModelError.malformedModel :=
  ⟨rfl, rfl⟩

/-- C6: the recurrent forward pass treats an omitted previous-activation
state exactly as an explicit state of zero column vectors of each layer's
hidden size — both yield the same per-layer activations and output — and
hence a sequence seeded with no state and continued with the returned
state equals one where the default-zero state was passed explicitly. -/
theorem c6_omitted_state_equals_zero_state (hiddenUnits : List Nat) (p : RNNParams) (input : Mat) :
    rnnForward hiddenUnits p input none
        = rnnForward hiddenUnits p input (some (hiddenUnits.map (fun h => Mat.new h 1))) ∧
    (∀ input2 : Mat,
      rnnForward hiddenUnits p input2 (some (rnnForward hiddenUnits p input none).1)
        = rnnForward hiddenUnits p input2
            (some (rnnForward hiddenUnits p input
              (some (hiddenUnits.map (fun h => Mat.new h 1)))).1)) :=
  ⟨rfl, fun _ => rfl⟩

/-- C7: omitted training options (or individually non-numeric fields)
default to `alpha = 0.01`, `lossClamp = 1` and deadband `loss = 1e-6`,
while explicitly supplied numeric values are used unchanged. -/
theorem c7_training_defaults :
    determineTrainingProperties none
        = { alpha := 1 / 100, lossClamp := 1, loss := 1 / 1000000 } ∧
    (∀ t : TrainingOpts, determineTrainingProperties (some t)
        = { alpha := t.alpha.getD (1 / 100), lossClamp := t.lossClamp.getD 1,
            loss := t.loss.getD (1 / 1000000) }) ∧
    (∀ a c l : ℚ, determineTrainingProperties
        (some { alpha := some a, lossClamp := some c, loss := some l })
        = { alpha := a, lossClamp := c, loss := l }) :=
  ⟨rfl, fun _ => rfl, fun _ _ _ => rfl⟩

/-- Index `length - 1` with default equals `getLast` on a nonempty
list. -/
theorem getD_last_of_ne_nil (l : List Mat) (h : l ≠ []) :
    l.getD (l.length - 1) (Mat.new 0 0) = l.getLast h := by
  have hlen : 0 < l.length := List.length_pos.mpr h
  rw [List.getD_eq_getElem?_getD, List.getElem?_eq_getElem (by omega), List.getLast_eq_getElem]
  rfl

/-- C8: in both model families the output is computed from the last
hidden activation as `add(mul(decoderWeight, lastHidden), decoderBias)`,
and the full feed-forward pass decodes exactly the activations produced by
the hidden stage. -/
theorem c8_output_is_decoder_affine_map (decoderWh decoderB : Mat) (acts : List Mat)
    (h : acts ≠ []) :
    fnnComputeOutput decoderWh decoderB acts
        = graphAdd (graphMul decoderWh (acts.getLast h)) decoderB ∧
    rnnComputeOutput decoderWh decoderB acts
        = graphAdd (graphMul decoderWh (acts.getLast h)) decoderB ∧
    (∀ (arch : Architecture) (sfp : Mat → List Mat) (input : List ℚ),
      fnnForwardValues arch decoderWh decoderB sfp input
        = (fnnComputeOutput decoderWh decoderB (sfp (transformArrayToMat arch.inputSize input))).w) := by
  refine ⟨?_, ?_, fun _ _ _ => rfl⟩
  · unfold fnnComputeOutput
    rw [getD_last_of_ne_nil acts h]
  · simp only [rnnComputeOutput]
    rw [getD_last_of_ne_nil acts h]

/-- C8 witness: decoding a singleton activation list multiplies the
decoder weight with that activation and adds the bias. -/
theorem c8_witness :
    fnnComputeOutput exampleIdentity2 exampleZeroBias2 [exampleMat]
        = graphAdd (graphMul exampleIdentity2
            (List.getLast [exampleMat] (List.cons_ne_nil exampleMat []))) exampleZeroBias2 :=
  (c8_output_is_decoder_affine_map exampleIdentity2 exampleZeroBias2 [exampleMat]
    (List.cons_ne_nil exampleMat [])).1

/-- C9: passing `alpha = 0` to the training step has the same effect as
omitting it — JavaScript truthiness makes `updateWeights` fall back to the
configured training alpha — while a nonzero explicit alpha is the rate
actually applied. -/
theorem c9_zero_alpha_uses_default :
    (∀ (training : TrainingProps) (arch : Architecture) (expected : List ℚ) (s : FNNFull),
      backward training arch expected (some 0) s = backward training arch expected none s) ∧
    (∀ (training : TrainingProps) (hiddenCount : Nat) (p : FNNParams),
      updateWeights training hiddenCount (some 0) p = updateWeights training hiddenCount none p) ∧
    (∀ (training : TrainingProps) (hiddenCount : Nat) (p : FNNParams) (a : ℚ), a ≠ 0 →
      updateWeights training hiddenCount (some a) p
        = updateDecoderLayer a (updateHiddenLayer a hiddenCount p)) := by
  refine ⟨?_, ?_, ?_⟩
  · intro training arch expected s
    simp [backward, updateWeights, truthyAlpha]
  · intro training n p
    simp [updateWeights, truthyAlpha]
  · intro training n p a ha
    simp [updateWeights, truthyAlpha, ha]

/-- C9 witness: an explicit nonzero alpha of 2 is the rate applied to the
parameter update. -/
theorem c9_witness :
    updateWeights exampleTraining 1 (some 2) exampleParams
        = updateDecoderLayer 2 (updateHiddenLayer 2 1 exampleParams) :=
  c9_zero_alpha_uses_default.2.2 exampleTraining 1 exampleParams 2 (by norm_num)

/-- C10: `getSquaredLossFor` returns the square of the sum of the signed
per-component differences of a forward pass against the expected output;
on a concrete model it differs from the sum of squared per-component
differences. -/
theorem c10_squared_sum_of_signed_losses :
    (∀ (arch : Architecture) (decoderWh decoderB : Mat) (sfp : Mat → List Mat)
        (input expected : List ℚ),
      getSquaredLossFor arch decoderWh decoderB sfp input expected
        = (((List.range arch.outputSize).map (fun i =>
            (fnnForwardValues arch decoderWh decoderB sfp input).getD i 0
              - expected.getD i 0)).sum) ^ 2) ∧
    getSquaredLossFor exampleArch2 exampleIdentity2 exampleZeroBias2 examplePassThrough
        [3, 0] [0, 2]
      ≠ ((List.range exampleArch2.outputSize).map (fun i =>
          ((fnnForwardValues exampleArch2 exampleIdentity2 exampleZeroBias2 examplePassThrough
              [3, 0]).getD i 0 - ([0, 2] : List ℚ).getD i 0) ^ 2)).sum := by
  constructor
  · intro arch decoderWh decoderB sfp input expected
    simp only [getSquaredLossFor, calculateLossSumByForwardPass]
    rw [List.sum_eq_foldl, List.foldl_map, pow_two]
  · have h2 : List.range 2 = [0, 1] := rfl
    simp only [getSquaredLossFor, calculateLossSumByForwardPass, fnnForwardValues,
      fnnComputeOutput, graphMul, graphAdd, transformArrayToMat, exampleArch2, exampleIdentity2,
      exampleZeroBias2, examplePassThrough, Mat.new, h2]
    norm_num

/-! Helper lemmas about the weight-update loop. -/

theorem listModify_of_length_eq (f : Mat → Mat) (xs : List Mat) :
    ∀ (ys : List Mat) (n : Nat), xs.length = n →
      listModify f n (xs ++ ys) = xs ++ listModify f 0 ys := by
  induction xs with
  | nil =>
      intro ys n h
      simp at h
      subst h
      rfl
  | cons a as ih =>
      intro ys n h
      cases n with
      | zero => simp at h
      | succ m =>
          simp only [List.length_cons, Nat.succ.injEq] at h
          show a :: listModify f m (as ++ ys) = a :: (as ++ listModify f 0 ys)
          rw [ih ys m h]

theorem foldl_listModify_range (f : Mat → Mat) :
    ∀ (n : Nat) (l : List Mat), n ≤ l.length →
      (List.range n).foldl (fun acc i => listModify f i acc) l
        = (l.take n).map f ++ l.drop n := by
  intro n
  induction n with
  | zero =>
      intro l h
      simp
  | succ k ih =>
      intro l h
      have hk : k < l.length := by omega
      have hxl : ((l.take k).map f).length = k := by
        simp [List.length_take]
        omega
      rw [List.range_succ, List.foldl_append, List.foldl_cons, List.foldl_nil, ih l (by omega),
        listModify_of_length_eq f ((l.take k).map f) (l.drop k) k hxl,
        List.drop_eq_getElem_cons hk]
      show (l.take k).map f ++ (f (l.get ⟨k, hk⟩) :: l.drop (k + 1))
        = (l.take (k + 1)).map f ++ l.drop (k + 1)
      rw [← List.take_concat_get l k hk, List.map_concat, List.concat_eq_append,
        List.append_assoc, List.singleton_append]
      rfl

theorem foldl_listModify_full (f : Mat → Mat) (l : List Mat) :
    (List.range l.length).foldl (fun acc i => listModify f i acc) l = l.map f := by
  rw [foldl_listModify_range f l.length l (le_refl _), List.take_length, List.drop_length,
    List.append_nil]

theorem updateHiddenLayer_pairwise (alpha : ℚ) (L : List Nat) :
    ∀ p : FNNParams,
      L.foldl (fun q i =>
        { q with
          hiddenWh := listModify (Mat.update alpha) i q.hiddenWh,
          hiddenBh := listModify (Mat.update alpha) i q.hiddenBh }) p
      = { p with
          hiddenWh := L.foldl (fun acc i => listModify (Mat.update alpha) i acc) p.hiddenWh,
          hiddenBh := L.foldl (fun acc i => listModify (Mat.update alpha) i acc) p.hiddenBh } := by
  induction L with
  | nil => intro p; rfl
  | cons a as ih =>
      intro p
      rw [List.foldl_cons, List.foldl_cons, List.foldl_cons, ih]

theorem updateHiddenLayer_eq_map (alpha : ℚ) (n : Nat) (p : FNNParams)
    (hW : p.hiddenWh.length = n) (hB : p.hiddenBh.length = n) :
    updateHiddenLayer alpha n p
      = { p with
          hiddenWh := p.hiddenWh.map (Mat.update alpha),
          hiddenBh := p.hiddenBh.map (Mat.update alpha) } := by
  unfold updateHiddenLayer
  rw [updateHiddenLayer_pairwise]
  have h1 : (List.range n).foldl (fun acc i => listModify (Mat.update alpha) i acc) p.hiddenWh
      = p.hiddenWh.map (Mat.update alpha) := by
    rw [← hW]
    exact foldl_listModify_full (Mat.update alpha) p.hiddenWh
  have h2 : (List.range n).foldl (fun acc i => listModify (Mat.update alpha) i acc) p.hiddenBh
      = p.hiddenBh.map (Mat.update alpha) := by
    rw [← hB]
    exact foldl_listModify_full (Mat.update alpha) p.hiddenBh
  rw [h1, h2]

/-- C4: a successful training step is exactly the composition — error
injection into the last output's gradient, LIFO backward replay of the
recorded sequence, exactly one `update` of every hidden-layer weight and
bias and of the decoder weight and bias with the effective learning rate,
and reset of the recorded sequence; and whenever a precondition error is
raised, the call returns the error and produces no updated state at
all. -/
theorem c4_training_step_composition (training : TrainingProps) (arch : Architecture)
    (expected : List ℚ) (alpha? : Option ℚ) (s : FNNFull)
    (hmem : s.graph.memorizing = true)
    (hout : s.core.previousOutput.isSome = true)
    (hW : (postReplayCore training arch expected s).params.hiddenWh.length
      = arch.hiddenUnits.length)
    (hB : (postReplayCore training arch expected s).params.hiddenBh.length
      = arch.hiddenUnits.length) :
    (backward training arch expected alpha? s = Except.ok
      { core :=
          { params := updatedParams (truthyAlpha alpha? training.alpha)
              (postReplayCore training arch expected s).params,
            previousOutput := (postReplayCore training arch expected s).previousOutput },
        graph := { memorizing := s.graph.memorizing, sequence := [] } }) ∧
    (∀ t : FNNFull, t.graph.memorizing = false →
      backward training arch expected alpha? t = Except.error ModelError.trainabilityDisabled) ∧
    (∀ t : FNNFull, t.graph.memorizing = true → t.core.previousOutput = none →
      backward training arch expected alpha? t
        = Except.error ModelError.precedingForwardPassRequired) := by
  refine ⟨?_, ?_, ?_⟩
  · cases hpo : s.core.previousOutput with
    | none =>
        rw [hpo] at hout
        simp at hout
    | some o =>
        have hfold : Graph.backwardReplay s.graph
            (injectLoss training arch.outputSize expected s.core)
            = postReplayCore training arch expected s := rfl
        simp only [backward, Graph.isMemorizingSequence, Graph.forgetCurrentSequence,
          updatedParams, hmem, if_true, hpo, updateWeights, updateDecoderLayer, hfold,
          updateHiddenLayer_eq_map (truthyAlpha alpha? training.alpha) arch.hiddenUnits.length
            (postReplayCore training arch expected s).params hW hB]
  · intro t ht
    simp [backward, Graph.isMemorizingSequence, ht]
  · intro t ht hnone
    simp [backward, Graph.isMemorizingSequence, ht, hnone]

/-- C4 witness: the training step on a concrete ready state succeeds and
produces exactly the injected-replayed-updated state with a cleared
sequence. -/
theorem c4_witness :
    backward exampleTraining exampleArch [0] none exampleReadyState = Except.ok
      { core :=
          { params := updatedParams (truthyAlpha none exampleTraining.alpha)
              (postReplayCore exampleTraining exampleArch [0] exampleReadyState).params,
            previousOutput := (postReplayCore exampleTraining exampleArch [0]
              exampleReadyState).previousOutput },
        graph := { memorizing := exampleReadyState.graph.memorizing, sequence := [] } } :=
  (c4_training_step_composition exampleTraining exampleArch [0] none exampleReadyState
    rfl rfl rfl rfl).1

end RecurrentJs
